import Mathlib

/-!
# Verification of the honeylint condition validator

A shallow embedding of the tokenizer (`Lexer.NextToken` and its helpers) and
the structural validator (`ParseCondition`) from `src/main.go`, together with
theorems settling the specification claims.

Strings are modelled as lists of characters; the Go byte-indexed scan cursor
becomes an explicit `pos : Nat` threaded through the functions.  The
token-collection loop in `ParseCondition` is modelled with explicit fuel
`input.length + 1`; `tokenizeFuel_stable` proves this fuel always suffices
(each emitted token consumes at least one character), so the fuelled
definition coincides with the unbounded Go loop.
-/

namespace Honeylint

/-- The `Token` enumeration from `src/main.go` (lines 37–57).  `EOF` is the
end-of-input marker returned by the lexer; it is never appended to the
collected token stream. -/
inductive Token where
  | ILLEGAL
  | EOF
  | WHITESPACE
  | AND
  | OR
  | NOT
  | LPAREN
  | RPAREN
  | EQUALS
  | NOT_EQUALS
  | REG_MATCH
  | EXISTS
  | IN
  | LT
  | LTE
  | GT
  | GTE
  deriving DecidableEq

/-- `isWhitespace` from `src/main.go`: space, tab, carriage return, newline. -/
def isWhitespace (ch : Char) : Bool :=
  ch = ' ' || ch = '\t' || ch = '\r' || ch = '\n'

/-- `isLetter` from `src/main.go`: ASCII `a`–`z` or `A`–`Z`. -/
def isLetter (ch : Char) : Bool :=
  ('a' ≤ ch && ch ≤ 'z') || ('A' ≤ ch && ch ≤ 'Z')

/-- `isDigit` from `src/main.go`: ASCII `0`–`9`. -/
def isDigit (ch : Char) : Bool :=
  '0' ≤ ch && ch ≤ '9'

/-- Length of the maximal whitespace prefix of a character list.  Together
with `skipWhitespace` this models the cursor-advancing loop of
`Lexer.skipWhitespace` (lines 132–140). -/
def skipWsCount : List Char → Nat
  | [] => 0
  | c :: cs => if isWhitespace c then skipWsCount cs + 1 else 0

/-- `Lexer.skipWhitespace`: advance the cursor past leading whitespace. -/
def skipWhitespace (input : List Char) (pos : Nat) : Nat :=
  pos + skipWsCount (input.drop pos)

/-- `Lexer.peek` (lines 142–147): the character at `pos`, or the zero byte
when the cursor is at or past the end of input. -/
def peek (input : List Char) (pos : Nat) : Char :=
  input.getD pos (Char.ofNat 0)

/-- Length of the maximal letter prefix of a character list; models the
scanning loop inside `Lexer.readKeyword` (lines 149–153). -/
def letterRun : List Char → Nat
  | [] => 0
  | c :: cs => if isLetter c then letterRun cs + 1 else 0

/-- Cursor position after scanning the letter run starting at `pos`. -/
def scanLetters (input : List Char) (pos : Nat) : Nat :=
  pos + letterRun (input.drop pos)

/-- The slice `input[start:stop]`, as used by `readKeyword` for the word. -/
def slice (input : List Char) (start stop : Nat) : List Char :=
  (input.drop start).take (stop - start)

/-- The `keywords` map from `src/main.go` (lines 59–72).  Lookup of a scanned
word; a word not in the map is `ILLEGAL` (`readKeyword`, lines 156–161).
The operator-shaped keys can never match a letters-only word but are kept
for faithfulness to the source map. -/
def keywordTok (w : List Char) : Token :=
  if w = "AND".data then Token.AND
  else if w = "OR".data then Token.OR
  else if w = "NOT".data then Token.NOT
  else if w = "=".data then Token.EQUALS
  else if w = "!=".data then Token.NOT_EQUALS
  else if w = "=~".data then Token.REG_MATCH
  else if w = "EXISTS".data then Token.EXISTS
  else if w = "IN".data then Token.IN
  else if w = "<".data then Token.LT
  else if w = "<=".data then Token.LTE
  else if w = ">".data then Token.GT
  else if w = ">=".data then Token.GTE
  else Token.ILLEGAL

/-- The `switch ch` body of `Lexer.NextToken` (lines 93–129): classify the
character `ch` read at position `p` (the cursor already stands at `p + 1`),
returning the token and the new cursor position.  The two-character
lookahead cases advance the cursor by two exactly when the second character
matches. -/
def scanChar (input : List Char) (p : Nat) (ch : Char) : Token × Nat :=
  if ch = '(' then (Token.LPAREN, p + 1)
  else if ch = ')' then (Token.RPAREN, p + 1)
  else if ch = '=' then
    if peek input (p + 1) = '~' then (Token.REG_MATCH, p + 2)
    else (Token.EQUALS, p + 1)
  else if ch = '!' then
    if peek input (p + 1) = '=' then (Token.NOT_EQUALS, p + 2)
    else (Token.NOT, p + 1)
  else if ch = ',' then (Token.WHITESPACE, p + 1)
  else if ch = '<' then
    if peek input (p + 1) = '=' then (Token.LTE, p + 2)
    else (Token.LT, p + 1)
  else if ch = '>' then
    if peek input (p + 1) = '=' then (Token.GTE, p + 2)
    else (Token.GT, p + 1)
  else if isLetter ch then
    (keywordTok (slice input p (scanLetters input (p + 1))), scanLetters input (p + 1))
  else (Token.ILLEGAL, p + 1)

/-- `Lexer.NextToken` (lines 83–130): skip whitespace; at end of input
return `EOF`, otherwise read one character and classify it. -/
def nextToken (input : List Char) (pos : Nat) : Token × Nat :=
  if skipWhitespace input pos < input.length then
    scanChar input (skipWhitespace input pos)
      (input.getD (skipWhitespace input pos) (Char.ofNat 0))
  else (Token.EOF, skipWhitespace input pos)

/-- The token-collection loop of `ParseCondition` (lines 199–207): call
`nextToken` until `EOF`, accumulating tokens.  Fuel bounds the number of
iterations; `tokenizeFuel_stable` shows `input.length + 1` always suffices. -/
def tokenizeFuel (input : List Char) (pos : Nat) : Nat → List Token
  | 0 => []
  | fuel + 1 =>
    if (nextToken input pos).1 = Token.EOF then []
    else (nextToken input pos).1 :: tokenizeFuel input (nextToken input pos).2 fuel

/-- The full token stream of a string, as collected by `ParseCondition`. -/
def tokenize (s : String) : List Token :=
  tokenizeFuel s.data 0 (s.data.length + 1)

/-- The first-token dispatch of `ParseCondition` (lines 214–250): returns
`some msg` when a structural rule rejects the stream, `none` when the chain
falls through.  `tokens.getD i Token.EOF` models the Go index `tokens[i]`
and `getLastD` models `tokens[len(tokens)-1]` (all uses are guarded by
non-emptiness in the caller, so the defaults are never consulted). -/
def checkFirst (tokens : List Token) : Option String :=
  if tokens.getD 0 Token.EOF = Token.NOT then
    if tokens.length = 1 then some "NOT operator must be followed by a condition"
    else if tokens.getD 1 Token.EOF = Token.LPAREN then
      if tokens.getLastD Token.EOF ≠ Token.RPAREN then some "Mismatched parentheses"
      else none
    else none
  else if tokens.getD 0 Token.EOF = Token.LPAREN then
    if tokens.getLastD Token.EOF ≠ Token.RPAREN then some "Mismatched parentheses"
    else none
  else if tokens.getD 0 Token.EOF = Token.EXISTS then
    if tokens.length = 1 then some "EXISTS operator must be followed by a field name"
    else if tokens.getD 1 Token.EOF ≠ Token.WHITESPACE then
      some "EXISTS operator must be followed by a field name"
    else none
  else if tokens.getD 0 Token.EOF = Token.IN then
    if tokens.length = 1 then some "IN operator must be followed by a field name"
    else if tokens.getD 1 Token.EOF ≠ Token.WHITESPACE then
      some "IN operator must be followed by a field name"
    else none
  else if tokens.getD 0 Token.EOF = Token.REG_MATCH then
    if tokens.length = 1 then some "=~ operator must be followed by a field name"
    else if tokens.getD 1 Token.EOF ≠ Token.WHITESPACE then
      some "=~ operator must be followed by a field name"
    else none
  else if tokens.getD 0 Token.EOF = Token.ILLEGAL then some "Invalid condition"
  else none

/-- `ParseCondition` (lines 196–258): tokenize, reject an empty stream with
"Empty condition", run the first-token dispatch, re-check emptiness (dead
code kept from the source), and otherwise return the input unchanged. -/
def parseCondition (input : String) : Except String String :=
  if (tokenize input).length = 0 then Except.error "Empty condition"
  else
    match checkFirst (tokenize input) with
    | some e => Except.error e
    | none =>
      if (tokenize input).length = 0 then Except.error "Empty condition"
      else Except.ok input

/-! ## Basic lemmas about the scanning helpers -/

theorem skipWsCount_le (l : List Char) : skipWsCount l ≤ l.length := by
  induction l with
  | nil => simp [skipWsCount]
  | cons c cs ih =>
    simp only [skipWsCount, List.length_cons]
    split_ifs <;> omega

theorem letterRun_le (l : List Char) : letterRun l ≤ l.length := by
  induction l with
  | nil => simp [letterRun]
  | cons c cs ih =>
    simp only [letterRun, List.length_cons]
    split_ifs <;> omega

theorem skipWhitespace_ge (input : List Char) (pos : Nat) :
    pos ≤ skipWhitespace input pos :=
  Nat.le_add_right _ _

theorem skipWhitespace_at_end (input : List Char) (pos : Nat)
    (h : input.length ≤ pos) : skipWhitespace input pos = pos := by
  unfold skipWhitespace
  rw [List.drop_eq_nil_of_le h]
  rfl

theorem skipWhitespace_no_ws (input : List Char) (pos : Nat)
    (h : pos < input.length)
    (hch : isWhitespace (input.getD pos (Char.ofNat 0)) = false) :
    skipWhitespace input pos = pos := by
  unfold skipWhitespace
  rw [List.drop_eq_getElem_cons h]
  rw [List.getD_eq_getElem input (Char.ofNat 0) h] at hch
  simp [skipWsCount, hch]

theorem peek_lt (input : List Char) (q : Nat) (c : Char)
    (hc : c ≠ Char.ofNat 0) (h : peek input q = c) : q < input.length := by
  by_contra hq
  push_neg at hq
  unfold peek at h
  rw [List.getD_eq_default _ _ hq] at h
  exact hc h.symm

theorem scanLetters_ge (input : List Char) (pos : Nat) :
    pos ≤ scanLetters input pos :=
  Nat.le_add_right _ _

theorem scanLetters_le (input : List Char) (pos : Nat)
    (h : pos ≤ input.length) : scanLetters input pos ≤ input.length := by
  have hr := letterRun_le (input.drop pos)
  rw [List.length_drop] at hr
  unfold scanLetters
  omega

/-! ## The lexer makes progress: every token consumes at least one character -/

theorem scanChar_progress (input : List Char) (p : Nat) (ch : Char)
    (hp : p < input.length) :
    p < (scanChar input p ch).2 ∧ (scanChar input p ch).2 ≤ input.length := by
  have h1 : scanLetters input (p + 1) ≤ input.length := scanLetters_le input (p + 1) hp
  have h2 : p + 1 ≤ scanLetters input (p + 1) := scanLetters_ge input (p + 1)
  unfold scanChar
  split_ifs <;>
    first
      | exact ⟨by omega, by omega⟩
      | (rename_i hpk
         have hlt := peek_lt input (p + 1) _ (by decide) hpk
         exact ⟨by omega, by omega⟩)

theorem nextToken_progress (input : List Char) (pos : Nat)
    (h : (nextToken input pos).1 ≠ Token.EOF) :
    pos < (nextToken input pos).2 ∧ (nextToken input pos).2 ≤ input.length := by
  have hge := skipWhitespace_ge input pos
  unfold nextToken at h ⊢
  split_ifs at h ⊢ with hlt
  · have hs := scanChar_progress input (skipWhitespace input pos)
      (input.getD (skipWhitespace input pos) (Char.ofNat 0)) hlt
    exact ⟨by omega, hs.2⟩
  · simp at h

theorem nextToken_at_end (input : List Char) (pos : Nat)
    (h : input.length ≤ pos) : nextToken input pos = (Token.EOF, pos) := by
  unfold nextToken
  rw [skipWhitespace_at_end input pos h]
  simp [Nat.not_lt.mpr h]

/-! ## The fuelled token-collection loop -/

theorem tokenizeFuel_succ (input : List Char) (pos fuel : Nat) :
    tokenizeFuel input pos (fuel + 1) =
      if (nextToken input pos).1 = Token.EOF then []
      else (nextToken input pos).1 :: tokenizeFuel input (nextToken input pos).2 fuel :=
  rfl

/-- Extra fuel beyond `input.length + 1 - pos` never changes the collected
stream: the Go loop really terminates within that many iterations. -/
theorem tokenizeFuel_stable (input : List Char) :
    ∀ (fuel pos extra : Nat), input.length + 1 ≤ fuel + pos →
      tokenizeFuel input pos (fuel + extra) = tokenizeFuel input pos fuel := by
  intro fuel
  induction fuel with
  | zero =>
    intro pos extra h
    have hend : input.length ≤ pos := by omega
    cases extra with
    | zero => rfl
    | succ e =>
      rw [Nat.zero_add, tokenizeFuel_succ, nextToken_at_end input pos hend]
      rfl
  | succ n ih =>
    intro pos extra h
    rw [show n + 1 + extra = (n + extra) + 1 from by omega]
    rw [tokenizeFuel_succ, tokenizeFuel_succ]
    by_cases he : (nextToken input pos).1 = Token.EOF
    · rw [if_pos he, if_pos he]
    · rw [if_neg he, if_neg he]
      have hp := nextToken_progress input pos he
      rw [ih (nextToken input pos).2 extra (by omega)]

theorem tokenizeFuel_length (input : List Char) :
    ∀ (fuel pos : Nat), (tokenizeFuel input pos fuel).length ≤ input.length - pos := by
  intro fuel
  induction fuel with
  | zero => intro pos; simp [tokenizeFuel]
  | succ n ih =>
    intro pos
    rw [tokenizeFuel_succ]
    by_cases he : (nextToken input pos).1 = Token.EOF
    · simp [he]
    · rw [if_neg he]
      have hp := nextToken_progress input pos he
      have hr := ih (nextToken input pos).2
      simp only [List.length_cons]
      omega

/-! ## Tokenizing an all-whitespace input -/

theorem skipWsCount_all (l : List Char)
    (h : ∀ c ∈ l, isWhitespace c = true) : skipWsCount l = l.length := by
  induction l with
  | nil => rfl
  | cons c cs ih =>
    simp only [skipWsCount, List.length_cons]
    rw [if_pos (h c (List.mem_cons_self c cs))]
    rw [ih (fun d hd => h d (List.mem_cons_of_mem c hd))]

theorem tokenize_all_ws (s : String)
    (h : ∀ c ∈ s.data, isWhitespace c = true) : tokenize s = [] := by
  have hskip : skipWhitespace s.data 0 = s.data.length := by
    unfold skipWhitespace
    rw [List.drop_zero, skipWsCount_all s.data h, Nat.zero_add]
  have hnt : nextToken s.data 0 = (Token.EOF, s.data.length) := by
    unfold nextToken
    rw [hskip]
    simp
  unfold tokenize
  rw [tokenizeFuel_succ, hnt]
  rfl

/-! ## The specification claims -/

/-- Claim C7: for every input string, the token-collection loop terminates
(the fuel `s.data.length + 1` is enough: any extra fuel yields the same
stream, because each emitted token consumes at least one character —
`nextToken_progress`), it never fails (total function), and the stream has
at most as many tokens as the string has characters. -/
theorem tokenize_terminates_and_bounded (s : String) :
    (∀ extra : Nat,
        tokenizeFuel s.data 0 (s.data.length + 1 + extra) = tokenize s) ∧
    (tokenize s).length ≤ s.length := by
  constructor
  · intro extra
    exact tokenizeFuel_stable s.data (s.data.length + 1) 0 extra (by omega)
  · have hb := tokenizeFuel_length s.data (s.data.length + 1) 0
    have hl : s.length = s.data.length := rfl
    unfold tokenize
    omega

/-- Claim C4: any input consisting only of whitespace characters (space,
tab, carriage return, newline) — the empty string included — tokenizes to
the empty stream, and `ParseCondition` rejects it with "Empty condition". -/
theorem whitespace_only_rejected (s : String)
    (h : ∀ c ∈ s.data, c = ' ' ∨ c = '\t' ∨ c = '\r' ∨ c = '\n') :
    tokenize s = [] ∧ parseCondition s = Except.error "Empty condition" := by
  have hws : ∀ c ∈ s.data, isWhitespace c = true := by
    intro c hc
    rcases h c hc with rfl | rfl | rfl | rfl <;> rfl
  have ht := tokenize_all_ws s hws
  refine ⟨ht, ?_⟩
  unfold parseCondition
  rw [ht]
  rfl

/-- Witness for C4, at the empty string and at a string of all four
whitespace characters. -/
theorem whitespace_only_rejected_wit :
    parseCondition "" = Except.error "Empty condition" ∧
    parseCondition " \t\r\n" = Except.error "Empty condition" :=
  ⟨(whitespace_only_rejected "" (by decide)).2,
   (whitespace_only_rejected " \t\r\n" (by decide)).2⟩

/-- Counterexample to claim C1: validating "EXISTS foo" does not succeed —
`ParseCondition` does not return the input without error. -/
theorem exists_space_not_accepted :
    parseCondition "EXISTS foo" ≠ Except.ok "EXISTS foo" := by
  intro h
  rw [show parseCondition "EXISTS foo" =
        Except.error "EXISTS operator must be followed by a field name" from rfl] at h
  exact Except.noConfusion h

/-- Claim C1 as amended: the space after `EXISTS` is skipped and `foo` is
scanned as an `ILLEGAL` keyword, so the second token is not the
comma-produced `WHITESPACE` separator and "EXISTS foo" is rejected with
"EXISTS operator must be followed by a field name". -/
theorem exists_space_rejected :
    tokenize "EXISTS foo" = [Token.EXISTS, Token.ILLEGAL] ∧
    parseCondition "EXISTS foo" =
      Except.error "EXISTS operator must be followed by a field name" :=
  ⟨rfl, rfl⟩

/-- Claim C2: any input whose token stream starts with a token other than
`NOT`, `LPAREN`, `EXISTS`, `IN`, `REG_MATCH` or `ILLEGAL` is accepted
unconditionally, whatever the rest of the stream contains. -/
theorem fallthrough_accepts (s : String) (t0 : Token) (rest : List Token)
    (h : tokenize s = t0 :: rest)
    (h1 : t0 ≠ Token.NOT) (h2 : t0 ≠ Token.LPAREN) (h3 : t0 ≠ Token.EXISTS)
    (h4 : t0 ≠ Token.IN) (h5 : t0 ≠ Token.REG_MATCH) (h6 : t0 ≠ Token.ILLEGAL) :
    parseCondition s = Except.ok s := by
  have hl : (t0 :: rest).length ≠ 0 := by simp
  have hc : checkFirst (t0 :: rest) = none := by
    unfold checkFirst
    simp only [List.getD_cons_zero]
    rw [if_neg h1, if_neg h2, if_neg h3, if_neg h4, if_neg h5, if_neg h6]
  unfold parseCondition
  rw [h, if_neg hl, hc, if_neg hl]

/-- Witness for C2: `AND` as first token, and an `EQUALS` first token
followed by an `ILLEGAL` token, are both accepted. -/
theorem fallthrough_accepts_wit :
    tokenize "= %" = [Token.EQUALS, Token.ILLEGAL] ∧
    parseCondition "AND" = Except.ok "AND" ∧
    parseCondition "= %" = Except.ok "= %" :=
  ⟨rfl,
   fallthrough_accepts "AND" Token.AND [] rfl (by decide) (by decide) (by decide)
     (by decide) (by decide) (by decide),
   fallthrough_accepts "= %" Token.EQUALS [Token.ILLEGAL] rfl (by decide) (by decide)
     (by decide) (by decide) (by decide) (by decide)⟩

/-- Claim C8: whenever validation succeeds, the returned string is the
original input, unchanged. -/
theorem accepted_returns_input (s r : String)
    (h : parseCondition s = Except.ok r) : r = s := by
  unfold parseCondition at h
  by_cases h0 : (tokenize s).length = 0
  · rw [if_pos h0] at h
    exact Except.noConfusion h
  · rw [if_neg h0] at h
    cases hc : checkFirst (tokenize s) with
    | some e =>
      rw [hc] at h
      exact Except.noConfusion h
    | none =>
      rw [hc] at h
      rw [if_neg h0] at h
      injection h with h
      exact h.symm

/-- Witness for C8, at the accepted input "AND". -/
theorem accepted_returns_input_wit :
    parseCondition "AND" = Except.ok "AND" ∧ "AND" = "AND" :=
  ⟨rfl, accepted_returns_input "AND" "AND" rfl⟩

/-- Claim C9: when the first token is `EXISTS`, `IN` or `REG_MATCH` and the
second token is the comma-produced `WHITESPACE` separator, validation
succeeds — even though no field name is present at all. -/
theorem separator_second_accepts (s : String) (t0 : Token) (rest : List Token)
    (h : tokenize s = t0 :: Token.WHITESPACE :: rest)
    (ht : t0 = Token.EXISTS ∨ t0 = Token.IN ∨ t0 = Token.REG_MATCH) :
    parseCondition s = Except.ok s := by
  have hl : (t0 :: Token.WHITESPACE :: rest).length ≠ 0 := by simp
  have hc : checkFirst (t0 :: Token.WHITESPACE :: rest) = none := by
    unfold checkFirst
    rcases ht with rfl | rfl | rfl <;> simp
  unfold parseCondition
  rw [h, if_neg hl, hc, if_neg hl]

/-- Witness for C9: "EXISTS ," and "IN ," are accepted without any field
name. -/
theorem separator_second_accepts_wit :
    tokenize "EXISTS ," = [Token.EXISTS, Token.WHITESPACE] ∧
    parseCondition "EXISTS ," = Except.ok "EXISTS ," ∧
    parseCondition "IN ," = Except.ok "IN ," :=
  ⟨rfl,
   separator_second_accepts "EXISTS ," Token.EXISTS [] rfl (Or.inl rfl),
   separator_second_accepts "IN ," Token.IN [] rfl (Or.inr (Or.inl rfl))⟩

/-- Claim C3: when the first token is `NOT` — a singleton stream is
rejected with "NOT operator must be followed by a condition"; a stream
whose second token is `LPAREN` but whose last token is not `RPAREN` is
rejected with "Mismatched parentheses"; otherwise validation succeeds. -/
theorem not_rule (s : String) (rest : List Token)
    (h : tokenize s = Token.NOT :: rest) :
    (rest = [] →
       parseCondition s = Except.error "NOT operator must be followed by a condition") ∧
    (rest.getD 0 Token.EOF = Token.LPAREN →
       (Token.NOT :: rest).getLastD Token.EOF ≠ Token.RPAREN →
       parseCondition s = Except.error "Mismatched parentheses") ∧
    (rest ≠ [] →
       (rest.getD 0 Token.EOF = Token.LPAREN →
         (Token.NOT :: rest).getLastD Token.EOF = Token.RPAREN) →
       parseCondition s = Except.ok s) := by
  have hl : (Token.NOT :: rest).length ≠ 0 := by simp
  refine ⟨?_, ?_, ?_⟩
  · rintro rfl
    unfold parseCondition
    rw [h]
    rfl
  · intro h1 h2
    cases rest with
    | nil => exact absurd h1 (by decide)
    | cons t1 tl =>
      have hlen : (Token.NOT :: t1 :: tl).length ≠ 1 := by simp
      have hc : checkFirst (Token.NOT :: t1 :: tl) = some "Mismatched parentheses" := by
        unfold checkFirst
        simp only [List.getD_cons_zero, List.getD_cons_succ] at h1 ⊢
        rw [if_pos trivial, if_neg hlen, if_pos h1, if_pos h2]
      unfold parseCondition
      rw [h, if_neg hl, hc]
  · intro hne himp
    cases rest with
    | nil => exact absurd rfl hne
    | cons t1 tl =>
      have hlen : (Token.NOT :: t1 :: tl).length ≠ 1 := by simp
      have hc : checkFirst (Token.NOT :: t1 :: tl) = none := by
        unfold checkFirst
        simp only [List.getD_cons_zero, List.getD_cons_succ] at himp ⊢
        rw [if_pos trivial, if_neg hlen]
        by_cases ht1 : t1 = Token.LPAREN
        · rw [if_pos ht1, if_neg (not_not_intro (himp ht1))]
        · rw [if_neg ht1]
      unfold parseCondition
      rw [h, if_neg hl, hc, if_neg hl]

/-- Witness for C3: "NOT" alone is rejected, "NOT (" trips the parenthesis
check, and "NOT (foo)" is accepted. -/
theorem not_rule_wit :
    parseCondition "NOT" = Except.error "NOT operator must be followed by a condition" ∧
    parseCondition "NOT (" = Except.error "Mismatched parentheses" ∧
    parseCondition "NOT (foo)" = Except.ok "NOT (foo)" :=
  ⟨(not_rule "NOT" [] rfl).1 rfl,
   (not_rule "NOT (" [Token.LPAREN] rfl).2.1 rfl (by decide),
   (not_rule "NOT (foo)" [Token.LPAREN, Token.ILLEGAL, Token.RPAREN] rfl).2.2
     (by decide) (fun _ => rfl)⟩

/-- Claim C5: when the first token is `LPAREN`, validation fails with
exactly "Mismatched parentheses" if and only if the last token of the
stream is not `RPAREN`. -/
theorem lparen_rule (s : String) (rest : List Token)
    (h : tokenize s = Token.LPAREN :: rest) :
    parseCondition s = Except.error "Mismatched parentheses" ↔
      (Token.LPAREN :: rest).getLastD Token.EOF ≠ Token.RPAREN := by
  have hl : (Token.LPAREN :: rest).length ≠ 0 := by simp
  by_cases hr : (Token.LPAREN :: rest).getLastD Token.EOF = Token.RPAREN
  · have hc : checkFirst (Token.LPAREN :: rest) = none := by
      unfold checkFirst
      simp only [List.getD_cons_zero]
      rw [if_pos trivial, if_neg (not_not_intro hr),
          if_neg (by decide : ¬(Token.LPAREN = Token.NOT))]
    constructor
    · intro he
      unfold parseCondition at he
      rw [h, if_neg hl, hc, if_neg hl] at he
      exact Except.noConfusion he
    · intro hne
      exact absurd hr hne
  · have hc : checkFirst (Token.LPAREN :: rest) = some "Mismatched parentheses" := by
      unfold checkFirst
      simp only [List.getD_cons_zero]
      rw [if_pos trivial, if_pos hr,
          if_neg (by decide : ¬(Token.LPAREN = Token.NOT))]
    constructor
    · intro _
      exact hr
    · intro _
      unfold parseCondition
      rw [h, if_neg hl, hc]

/-- Witness for C5: "(A AND B" (missing closing parenthesis) is rejected
with "Mismatched parentheses", while "(A)" is not rejected with it. -/
theorem lparen_rule_wit :
    parseCondition "(A AND B" = Except.error "Mismatched parentheses" ∧
    parseCondition "(A)" ≠ Except.error "Mismatched parentheses" :=
  ⟨(lparen_rule "(A AND B" [Token.ILLEGAL, Token.AND, Token.ILLEGAL] rfl).mpr (by decide),
   fun he => absurd ((lparen_rule "(A)" [Token.ILLEGAL, Token.RPAREN] rfl).mp he)
     (by decide)⟩

/-- Claim C6: the two-character lookahead of the tokenizer.  With the
cursor at a non-whitespace operator character (so `skipWhitespace` leaves
it in place): `=` then `~` yields `REG_MATCH`, `=` alone `EQUALS`; `!` then
`=` yields `NOT_EQUALS`, `!` alone `NOT`; `<` then `=` yields `LTE`, `<`
alone `LT`; `>` then `=` yields `GTE`, `>` alone `GT`.  The cursor advances
by two exactly when the second character matches, and past only the first
character otherwise. -/
theorem lookahead_rule (input : List Char) (pos : Nat) (h : pos < input.length) :
    (input.getD pos (Char.ofNat 0) = '=' →
       nextToken input pos =
         if peek input (pos + 1) = '~' then (Token.REG_MATCH, pos + 2)
         else (Token.EQUALS, pos + 1)) ∧
    (input.getD pos (Char.ofNat 0) = '!' →
       nextToken input pos =
         if peek input (pos + 1) = '=' then (Token.NOT_EQUALS, pos + 2)
         else (Token.NOT, pos + 1)) ∧
    (input.getD pos (Char.ofNat 0) = '<' →
       nextToken input pos =
         if peek input (pos + 1) = '=' then (Token.LTE, pos + 2)
         else (Token.LT, pos + 1)) ∧
    (input.getD pos (Char.ofNat 0) = '>' →
       nextToken input pos =
         if peek input (pos + 1) = '=' then (Token.GTE, pos + 2)
         else (Token.GT, pos + 1)) := by
  refine ⟨?_, ?_, ?_, ?_⟩ <;> intro hch <;>
    (have hskip : skipWhitespace input pos = pos :=
      skipWhitespace_no_ws input pos h (by rw [hch]; rfl)) <;>
    (unfold nextToken
     rw [hskip, if_pos h, hch]
     unfold scanChar) <;>
    simp

/-- Witness for C6: each of the eight operator classifications at cursor
position zero of a two-character input. -/
theorem lookahead_rule_wit :
    nextToken "=~".data 0 = (Token.REG_MATCH, 2) ∧
    nextToken "=x".data 0 = (Token.EQUALS, 1) ∧
    nextToken "!=".data 0 = (Token.NOT_EQUALS, 2) ∧
    nextToken "!x".data 0 = (Token.NOT, 1) ∧
    nextToken "<=".data 0 = (Token.LTE, 2) ∧
    nextToken "<x".data 0 = (Token.LT, 1) ∧
    nextToken ">=".data 0 = (Token.GTE, 2) ∧
    nextToken ">x".data 0 = (Token.GT, 1) :=
  ⟨(lookahead_rule "=~".data 0 (by decide)).1 rfl,
   (lookahead_rule "=x".data 0 (by decide)).1 rfl,
   (lookahead_rule "!=".data 0 (by decide)).2.1 rfl,
   (lookahead_rule "!x".data 0 (by decide)).2.1 rfl,
   (lookahead_rule "<=".data 0 (by decide)).2.2.1 rfl,
   (lookahead_rule "<x".data 0 (by decide)).2.2.1 rfl,
   (lookahead_rule ">=".data 0 (by decide)).2.2.2 rfl,
   (lookahead_rule ">x".data 0 (by decide)).2.2.2 rfl⟩

/-- Claim C10: a lone `!` (not followed by `=`) lexes to the same `NOT`
token as the keyword "NOT", so the input "!" is rejected with exactly
"NOT operator must be followed by a condition". -/
theorem bang_alone_is_not :
    tokenize "!" = [Token.NOT] ∧
    tokenize "!" = tokenize "NOT" ∧
    parseCondition "!" =
      Except.error "NOT operator must be followed by a condition" :=
  ⟨rfl, rfl, rfl⟩

end Honeylint
